import Mathlib

/-!
Verification of the qlog logging library (lopesivan/qlog).

The definitions below are a shallow embedding of the emission core of
`src/qdiilog3.hpp` (the `qlog` lineage; the later documented revision
`src/unnamed/part_001` (qlog.hpp) has an identical core and is cited where
it differs).  Machine integers are modelled as `Nat`; the global threshold
`settings::loglevel` is passed explicitly as a `thr : Nat` argument; the
nullable `std::ostream *` sink and the nullable `const char *` decoration
pointers are modelled as `Option`; bytes written to the sink are modelled
as a list of tagged write events.
-/

namespace qlog

/-- Severity constants, `src/qdiilog3.hpp` lines 28-37: `disabled = 0`,
`debug = 1`, `trace = 2`, `info = 3`, `warning = 4`, `error = 5`. -/
def loglevel.disabled : Nat := 0

/-- `loglevel::debug = 1` (qdiilog3.hpp line 32). -/
def loglevel.debug : Nat := 1

/-- `loglevel::trace = 2` (qdiilog3.hpp line 33). -/
def loglevel.trace : Nat := 2

/-- `loglevel::info = 3` (qdiilog3.hpp line 34). -/
def loglevel.info : Nat := 3

/-- `loglevel::warning = 4` (qdiilog3.hpp line 35). -/
def loglevel.warning : Nat := 4

/-- `loglevel::error = 5` (qdiilog3.hpp line 36). -/
def loglevel.error : Nat := 5

/-- One write performed on the sink stream, tagged by the source line that
performed it: `pre` is `(*m_output) << m_prepend` (treat/signal first-part),
`val` is `(*m_output) << _message` (treat), `app` is `(*m_output) << m_append`
(signal_end), `nl` is the `std::endl` manipulator applied to the stream. -/
inductive Wr where
  | pre (s : String)
  | val (s : String)
  | app (s : String)
  | nl
deriving DecidableEq, Repr

/-- The bytes a `Wr` event puts on the stream (`std::endl` writes a newline). -/
def Wr.bytes : Wr → String
  | .pre s => s
  | .val s => s
  | .app s => s
  | .nl => "\n"

/-- True exactly on suffix (`m_append`) writes. -/
def Wr.isApp : Wr → Bool
  | .app _ => true
  | _ => false

/-- True exactly on prefix-text (`m_prepend`) writes. -/
def Wr.isPre : Wr → Bool
  | .pre _ => true
  | _ => false

/-- Concatenation of the bytes of a write-event list: what the sink sees. -/
def render (ws : List Wr) : String := ws.foldr (fun w acc => w.bytes ++ acc) ""

/-- The `logger<level>` object of qdiilog3.hpp lines 136-275.  The template
parameter `level` becomes the field `level`; the data members are lines
219-222: `m_disabled`, `m_output` (`std::ostream *`, null = `none`),
`m_prepend` and `m_append` (`const char *`, null = `none`). -/
structure logger where
  level : Nat
  m_disabled : Bool
  m_output : Option Nat
  m_prepend : Option String
  m_append : Option String
deriving DecidableEq, Repr

/-- `logger::logger(bool _disabled = false)`, qdiilog3.hpp lines 139-147:
all three pointers start null. -/
def logger.mk_default (lv : Nat) (dis : Bool) : logger :=
  ⟨lv, dis, none, none, none⟩

/-- `logger::isDisabled`, qdiilog3.hpp line 165. -/
def logger.isDisabled (l : logger) : Bool := l.m_disabled

/-- `logger::can_log`, qdiilog3.hpp lines 225-228:
`( level >= get_loglevel() ) && m_output && !isDisabled()`.
The global `settings::loglevel` is the explicit argument `thr`. -/
def logger.can_log (l : logger) (thr : Nat) : Bool :=
  decide (l.level ≥ thr) && l.m_output.isSome && !(l.isDisabled)

/-- `logger::treat`, qdiilog3.hpp lines 167-177, with the state of the object
threaded through: the method is `const` and assigns no field, so the returned
logger is the object after the call.  Body: if `can_log()`, then if
`_first_part && m_prepend` write the prepend text, then write the message. -/
def logger.treatS (l : logger) (thr : Nat) (msg : String) (first_part : Bool) :
    logger × List Wr :=
  if l.can_log thr then
    (l, (if first_part then
           match l.m_prepend with
           | some p => [Wr.pre p]
           | none => []
         else []) ++ [Wr.val msg])
  else (l, [])

/-- The writes performed by `logger::treat`. -/
def logger.treat (l : logger) (thr : Nat) (msg : String) (first_part : Bool) :
    List Wr :=
  (l.treatS thr msg first_part).2

/-- `logger::signal_end`, qdiilog3.hpp lines 194-198, state threaded:
`if( can_log() && m_append ) ( *m_output ) << m_append;`. -/
def logger.signal_endS (l : logger) (thr : Nat) : logger × List Wr :=
  if l.can_log thr then
    (l, match l.m_append with
        | some a => [Wr.app a]
        | none => [])
  else (l, [])

/-- The writes performed by `logger::signal_end`. -/
def logger.signal_end (l : logger) (thr : Nat) : List Wr :=
  (l.signal_endS thr).2

/-- `logger::signal`, qdiilog3.hpp lines 200-209, state threaded: if
`can_log()`, then if `first_message && m_prepend` write the prepend text,
then apply the manipulator (`std::endl` writes a newline). -/
def logger.signalS (l : logger) (thr : Nat) (first_message : Bool) :
    logger × List Wr :=
  if l.can_log thr then
    (l, (if first_message then
           match l.m_prepend with
           | some p => [Wr.pre p]
           | none => []
         else []) ++ [Wr.nl])
  else (l, [])

/-- The writes performed by `logger::signal`. -/
def logger.signal (l : logger) (thr : Nat) (first_message : Bool) : List Wr :=
  (l.signalS thr first_message).2

/-- `logger::set_output`, qdiilog3.hpp lines 179-182 (identical to
`change_output` of part_001): `m_output = &_output;` on this instance only. -/
def logger.change_output (l : logger) (o : Nat) : logger :=
  { l with m_output := some o }

/-- `logger::prepend`, qdiilog3.hpp lines 189-192: `m_prepend = _txt;`. -/
def logger.set_prepend (l : logger) (t : Option String) : logger :=
  { l with m_prepend := t }

/-- `logger::append`, qdiilog3.hpp lines 184-187: `m_append = _txt;`. -/
def logger.set_append (l : logger) (t : Option String) : logger :=
  { l with m_append := t }

/-- `logger::operator()(bool _cond)`, qdiilog3.hpp lines 211-216, with the
state of the called object threaded: the body copies `*this` into `ret`,
sets `ret.m_disabled = !_cond`, returns `ret`; the called object itself is
not assigned, so the first component is the object after the call. -/
def logger.condS (l : logger) (c : Bool) : logger × logger :=
  (l, { l with m_disabled := !c })

/-- The logger returned by `logger::operator()(bool)`. -/
def logger.cond (l : logger) (c : Bool) : logger :=
  (l.condS c).2

/-- The `receiver<level>` emission session, qdiilog3.hpp lines 281-332:
fields `m_treated` and `m_muted` (the logger reference is passed alongside).
The constructor (lines 284-289) and copy constructor (lines 291-295) both
start with `m_treated = false`. -/
structure receiver where
  m_treated : Bool
  m_muted : Bool
deriving DecidableEq, Repr

/-- `receiver::treat`, qdiilog3.hpp lines 314-323: marks this session
treated, forwards to `logger::treat` unless muted, and returns a copy of
itself (the copy constructor resets `m_treated` to false).  The result is
(this session after the call, the returned copy, the writes performed). -/
def receiver.treatR (r : receiver) (l : logger) (thr : Nat) (msg : String)
    (first_part : Bool) : receiver × receiver × List Wr :=
  (⟨true, r.m_muted⟩, ⟨false, r.m_muted⟩,
    if r.m_muted then [] else l.treat thr msg first_part)

/-- `receiver::~receiver`, qdiilog3.hpp lines 297-301: an untreated session
fires `logger::signal_end` when destroyed. -/
def receiver.dtor (r : receiver) (l : logger) (thr : Nat) : List Wr :=
  if r.m_treated then [] else l.signal_end thr

/-- End-of-full-expression destruction of all the temporaries of a statement:
the sessions are destroyed in reverse order of construction, each running
`receiver::~receiver`. -/
def destructAll (l : logger) (thr : Nat) (rs : List receiver) : List Wr :=
  (rs.reverse.map (fun r => r.dtor l thr)).flatten

/-- The chain of `operator<<( const receiver &, const T & )` calls
(qdiilog3.hpp lines 335-339) on the values after the first one: each call
treats the current session (which marks it) and continues on the returned
copy.  Returns the final states of all sessions alive at the end of the
chain, in construction order, together with the writes performed. -/
def runRest (l : logger) (thr : Nat) (r : receiver) :
    List String → List receiver × List Wr
  | [] => ([r], [])
  | v :: vs =>
    let t := r.treatR l thr v false
    let rest := runRest l thr t.2.1 vs
    (t.1 :: rest.1, t.2.2 ++ rest.2)

/-- A full statement `logger << v << vs...` with at least one value:
`operator<<( const logger &, const T & )` (qdiilog3.hpp lines 342-346)
constructs `receiver(&logger)` and calls `treat(v, true)` on it; the
remaining values go through the receiver chain; at the end of the full
expression every temporary session is destroyed in reverse construction
order. -/
def logger.statement (l : logger) (thr : Nat) (v : String) (vs : List String) :
    List Wr :=
  let t := (⟨false, false⟩ : receiver).treatR l thr v true
  let rest := runRest l thr t.2.1 vs
  (t.2.2 ++ rest.2) ++ destructAll l thr (t.1 :: rest.1)

/-- The statement `logger << line_end` whose only token is the line-end
manipulator: `operator<<( const logger &, standard_endline )`
(qdiilog3.hpp lines 356-361) calls `signal(_func, true)` and returns a fresh
untreated `receiver(&_logger)`, which is destroyed at the end of the full
expression. -/
def logger.endlStatement (l : logger) (thr : Nat) : List Wr :=
  l.signal thr true ++ destructAll l thr [⟨false, false⟩]

/-! ## The per-level sink registry

`static std::vector<logger *> * logger<level>::m_loggers`
(qdiilog3.hpp line 233; identical in part_001).  A registered instance is
identified by its address, modelled as a `Nat` paired with the instance's
current configuration; a null vector pointer is `none`. -/

/-- One registered instance: its address and its configuration. -/
abbrev RegEntry := Nat × logger

/-- The per-level registry vector pointer `m_loggers`; null = `none`. -/
abbrev Registry := Option (List RegEntry)

/-- `logger::register_me`, qdiilog3.hpp lines 234-240: allocate the vector
if the pointer is null, then `push_back` the instance. -/
def register_me (reg : Registry) (e : RegEntry) : Registry :=
  match reg with
  | none => some [e]
  | some es => some (es ++ [e])

/-- The linear search and `erase` of `logger::unregister_me`
(qdiilog3.hpp lines 244-254): find the first entry whose address is `a` and
remove it; `none` when no entry matches (then `it == end` and the
`assert( it != end )` on line 253 fires — a contract violation). -/
def eraseById (es : List RegEntry) (a : Nat) : Option (List RegEntry) :=
  match es with
  | [] => none
  | e :: rest =>
    if e.1 = a then some rest
    else (eraseById rest a).map (fun r => e :: r)

/-- `logger::unregister_me`, qdiilog3.hpp lines 242-261: dereferences the
vector pointer (null pointer = failure, modelled `none`), erases the entry
found by the linear search (absence = assertion failure, `none`), and when
the vector becomes empty deletes it and nulls the pointer. -/
def unregister_me (reg : Registry) (a : Nat) : Option Registry :=
  match reg with
  | none => none
  | some es =>
    (eraseById es a).map (fun r => if r.isEmpty then none else some r)

/-- `logger::set_all_outputs`, qdiilog3.hpp lines 264-273: dereferences the
vector pointer (`m_loggers->end()`; a null pointer is a null dereference,
modelled as failure `none`) and calls `set_output`/`change_output` on every
registered instance. -/
def set_all_outputs (reg : Registry) (o : Nat) : Option Registry :=
  match reg with
  | none => none
  | some es => some (some (es.map (fun e => (e.1, e.2.change_output o))))

/-- The member `logger::set_output` of the final revision
`src/unnamed/part_001` (qlog.hpp): its body is
`logger<level>::set_all_outputs( _output );` — a broadcast to every
registered instance of the severity, whichever instance it is called on.
(In src/qdiilog3.hpp lines 179-182 the member updates only the called
instance; that per-instance update is `logger.change_output` above, which
part_001 names `change_output` and uses from the broadcast loop.) -/
def set_output_member (reg : Registry) (o : Nat) : Option Registry :=
  set_all_outputs reg o

/-! ## Lifecycle state machine for the registry invariant

A state is the list of currently-live `logger<L>` objects (address and
configuration, in construction order) together with the registry.  The
operations are the constructors and the destructor of `logger<L>`:
`logger(bool)` (lines 139-147), the copy constructor (lines 149-156, also
run by `operator()(bool)` line 213 for its returned copy), and `~logger`
(lines 158-161). -/

/-- Live objects of one level plus that level's registry. -/
structure LState where
  live : List RegEntry
  reg : Registry
deriving DecidableEq, Repr

/-- One lifecycle event on `logger<L>` objects.  `construct a dis` is
`logger(bool _disabled)` creating a fresh object at address `a`;
`copy src a` is the copy constructor; `condCall src a c` is
`operator()(bool c)` copy-constructing its return value from `src` and then
setting its `m_disabled` to `!c`; `destroy a` is `~logger`. -/
inductive LOp where
  | construct (a : Nat) (dis : Bool)
  | copy (src a : Nat)
  | condCall (src a : Nat) (c : Bool)
  | destroy (a : Nat)
deriving DecidableEq, Repr

/-- Create a fresh object with configuration `cfg` at address `a`: the
object becomes live and the constructor runs `register_me` (lines 146, 155). -/
def registerNew (s : LState) (e : RegEntry) : LState :=
  ⟨s.live ++ [e], register_me s.reg e⟩

/-- One lifecycle step.  `none` models a contract violation: constructing at
an address that is already live, copying from a dead object, or destroying
an object that is not live / not registered (the `assert` of
`unregister_me`). -/
def stepOp (L : Nat) (s : LState) : LOp → Option LState
  | .construct a dis =>
    if a ∈ s.live.map Prod.fst then none
    else some (registerNew s (a, logger.mk_default L dis))
  | .copy src a =>
    if a ∈ s.live.map Prod.fst then none
    else
      match s.live.find? (fun e => e.1 == src) with
      | none => none
      | some e => some (registerNew s (a, e.2))
  | .condCall src a c =>
    if a ∈ s.live.map Prod.fst then none
    else
      match s.live.find? (fun e => e.1 == src) with
      | none => none
      | some e => some (registerNew s (a, e.2.cond c))
  | .destroy a =>
    match eraseById s.live a, unregister_me s.reg a with
    | some lv, some r => some ⟨lv, r⟩
    | _, _ => none

/-- Run a sequence of lifecycle events. -/
def execOps (L : Nat) (s : LState) : List LOp → Option LState
  | [] => some s
  | op :: ops =>
    match stepOp L s op with
    | none => none
    | some s2 => execOps L s2 ops

/-- The emission predicate exactly as the spec words it (spec §4.1/§8):
`can_emit(instance_severity) = instance_severity.rank >= threshold.rank AND
threshold != disabled`.  Stated over the code's numeric ranks so that it can
be compared with `logger.can_log`. -/
def spec_can_emit (L thr : Nat) : Bool :=
  decide (L ≥ thr) && !(thr == loglevel.disabled)

/-! ## Closed form of a statement's writes -/

/-- The prepend write of a first token, as a list (empty when `m_prepend` is
null). -/
def preW (l : logger) : List Wr :=
  match l.m_prepend with
  | some p => [Wr.pre p]
  | none => []

/-- The append write of `signal_end`, as a list (empty when `m_append` is
null). -/
def appW (l : logger) : List Wr :=
  match l.m_append with
  | some a => [Wr.app a]
  | none => []

lemma treat_first {l : logger} {thr : Nat} (v : String)
    (h : l.can_log thr = true) : l.treat thr v true = preW l ++ [Wr.val v] := by
  simp [logger.treat, logger.treatS, h, preW]

lemma treat_rest {l : logger} {thr : Nat} (v : String)
    (h : l.can_log thr = true) : l.treat thr v false = [Wr.val v] := by
  simp [logger.treat, logger.treatS, h]

lemma treat_none {l : logger} {thr : Nat} (v : String) (fp : Bool)
    (h : l.can_log thr = false) : l.treat thr v fp = [] := by
  simp [logger.treat, logger.treatS, h]

lemma signal_end_eq {l : logger} {thr : Nat} (h : l.can_log thr = true) :
    l.signal_end thr = appW l := by
  simp [logger.signal_end, logger.signal_endS, h, appW]

lemma signal_end_none {l : logger} {thr : Nat} (h : l.can_log thr = false) :
    l.signal_end thr = [] := by
  simp [logger.signal_end, logger.signal_endS, h]

lemma runRest_closed (l : logger) (thr : Nat) (h : l.can_log thr = true) :
    ∀ vs : List String,
      runRest l thr ⟨false, false⟩ vs
        = (List.replicate vs.length ⟨true, false⟩ ++ [⟨false, false⟩],
           vs.map Wr.val)
  | [] => by simp [runRest]
  | v :: vs => by
    simp only [runRest, receiver.treatR, runRest_closed l thr h vs,
      treat_rest v h, List.length_cons, List.replicate_succ, List.map_cons]
    simp

lemma flatten_replicate_nil (n : Nat) :
    (List.replicate n ([] : List Wr)).flatten = [] := by
  induction n with
  | zero => rfl
  | succ n ih => simp [List.replicate_succ, ih]

lemma destructAll_closed (l : logger) (thr : Nat) (n : Nat) :
    destructAll l thr
      (⟨true, false⟩ :: (List.replicate n ⟨true, false⟩ ++ [⟨false, false⟩]))
      = l.signal_end thr := by
  simp only [destructAll, List.reverse_cons, List.reverse_append,
    List.reverse_replicate, List.reverse_cons, List.reverse_nil]
  simp [receiver.dtor, List.map_replicate, flatten_replicate_nil,
    List.map_append, ← List.replicate_succ]

/-- Closed form of a statement's writes when emission is possible: the
prepend text (if configured), then every value in order, then the append
text (if configured). -/
lemma statement_closed {l : logger} {thr : Nat} (v : String) (vs : List String)
    (h : l.can_log thr = true) :
    l.statement thr v vs = preW l ++ (v :: vs).map Wr.val ++ appW l := by
  simp only [logger.statement, receiver.treatR, Bool.false_eq_true,
    if_neg, runRest_closed l thr h vs, destructAll_closed l thr vs.length,
    treat_first v h, signal_end_eq h]
  simp

/-- When `can_log` is false nothing at all is written by a statement. -/
lemma statement_none {l : logger} {thr : Nat} (v : String) (vs : List String)
    (h : l.can_log thr = false) : l.statement thr v vs = [] := by
  have hrest : ∀ (r : receiver) (ws : List String), (runRest l thr r ws).2 = [] := by
    intro r ws
    induction ws generalizing r with
    | nil => simp [runRest]
    | cons w ws ih => simp [runRest, receiver.treatR, treat_none w _ h, ih]
  have hdtor : ∀ rs : List receiver, destructAll l thr rs = [] := by
    intro rs
    simp [destructAll, receiver.dtor, signal_end_none h, List.flatten_eq_nil_iff]
  simp [logger.statement, receiver.treatR, treat_none v _ h, hrest, hdtor]

/-- A statement with emission possible writes something. -/
lemma statement_ne_nil {l : logger} {thr : Nat} (v : String) (vs : List String)
    (h : l.can_log thr = true) : l.statement thr v vs ≠ [] := by
  rw [statement_closed v vs h]
  simp

/-! ## Registry lemmas -/

lemma eraseById_of_not_mem :
    ∀ (es : List RegEntry) (a : Nat), a ∉ es.map Prod.fst →
      eraseById es a = none
  | [], _, _ => rfl
  | e :: rest, a, h => by
    have h1 : e.1 ≠ a := by
      intro hea
      exact h (by simp [hea.symm])
    have h2 : a ∉ rest.map Prod.fst := by
      intro hmem
      exact h (by simp [hmem])
    simp [eraseById, h1, eraseById_of_not_mem rest a h2]

lemma eraseById_of_mem_nodup :
    ∀ (es : List RegEntry) (a : Nat), (es.map Prod.fst).Nodup →
      a ∈ es.map Prod.fst →
      eraseById es a = some (es.filter (fun e => decide (e.1 ≠ a)))
  | [], a, _, hm => by simp at hm
  | e :: rest, a, hnd, hm => by
    rw [List.map_cons] at hnd hm
    have hnd2 := (List.nodup_cons.mp hnd).2
    by_cases heq : e.1 = a
    · have hnotin : a ∉ rest.map Prod.fst := heq ▸ (List.nodup_cons.mp hnd).1
      have hfilter : rest.filter (fun e => decide (e.1 ≠ a)) = rest :=
        List.filter_eq_self.mpr (fun x hx => by
          simp only [decide_eq_true_eq]
          intro hxa
          exact hnotin (hxa ▸ List.mem_map_of_mem Prod.fst hx))
      have hcons : (e :: rest).filter (fun e => decide (e.1 ≠ a)) = rest := by
        rw [List.filter_cons_of_neg (by simp [heq]), hfilter]
      rw [hcons]
      simp [eraseById, heq]
    · have hmem : a ∈ rest.map Prod.fst := by
        rcases List.mem_cons.mp hm with h | h
        · exact absurd h.symm heq
        · exact h
      have hcons : (e :: rest).filter (fun e => decide (e.1 ≠ a))
          = e :: rest.filter (fun e => decide (e.1 ≠ a)) :=
        List.filter_cons_of_pos (by simp [heq])
      rw [hcons]
      simp [eraseById, heq, eraseById_of_mem_nodup rest a hnd2 hmem]

lemma eraseById_sublist :
    ∀ (es : List RegEntry) (a : Nat) (r : List RegEntry),
      eraseById es a = some r → r.Sublist es
  | [], _, _, h => by simp [eraseById] at h
  | e :: rest, a, r, h => by
    by_cases he : e.1 = a
    · simp only [eraseById, if_pos he, Option.some.injEq] at h
      exact h ▸ List.sublist_cons_self e rest
    · simp only [eraseById, if_neg he, Option.map_eq_some'] at h
      obtain ⟨r2, hr2, hr⟩ := h
      exact hr ▸ List.Sublist.cons₂ e (eraseById_sublist rest a r2 hr2)

/-! ## The lifecycle invariant -/

/-- The per-level registry invariant: the registry pointer is null exactly
when no instance is live, otherwise the registry holds exactly the live
instances (in order), and the live addresses are pairwise distinct. -/
def InvS (s : LState) : Prop :=
  s.reg = (if s.live.isEmpty then none else some s.live)
  ∧ (s.live.map Prod.fst).Nodup

lemma registerNew_inv {s : LState} {e : RegEntry} (hI : InvS s)
    (hf : e.1 ∉ s.live.map Prod.fst) : InvS (registerNew s e) := by
  obtain ⟨h1, h2⟩ := hI
  constructor
  · cases hliv : s.live with
    | nil =>
      rw [hliv] at h1
      simp only [List.isEmpty_nil, if_pos] at h1
      simp [registerNew, register_me, h1, hliv]
    | cons x xs =>
      rw [hliv] at h1
      simp only [List.isEmpty_cons, Bool.false_eq_true, if_neg] at h1
      simp [registerNew, register_me, h1, hliv]
  · simp only [registerNew, List.map_append]
    exact List.nodup_append.mpr ⟨h2, List.nodup_singleton _, by
      intro x hx hx1
      simp only [List.map_cons, List.map_nil, List.mem_singleton] at hx1
      exact hf (hx1 ▸ hx)⟩

lemma stepOp_inv {L : Nat} {s s2 : LState} {op : LOp} (hI : InvS s)
    (h : stepOp L s op = some s2) : InvS s2 := by
  cases op with
  | construct a dis =>
    rw [stepOp] at h
    split at h
    · exact absurd h (by simp)
    · next hf =>
      cases h
      exact registerNew_inv hI hf
  | copy src a =>
    rw [stepOp] at h
    split at h
    · exact absurd h (by simp)
    · next hf =>
      split at h
      · exact absurd h (by simp)
      · cases h
        exact registerNew_inv hI hf
  | condCall src a c =>
    rw [stepOp] at h
    split at h
    · exact absurd h (by simp)
    · next hf =>
      split at h
      · exact absurd h (by simp)
      · cases h
        exact registerNew_inv hI hf
  | destroy a =>
    obtain ⟨h1, h2⟩ := hI
    rw [stepOp] at h
    split at h
    · next lv r herase hunreg =>
      cases h
      have hlive_ne : s.live ≠ [] := by
        intro hnil
        rw [hnil] at herase
        simp [eraseById] at herase
      have h1' : s.reg = some s.live := by
        rw [h1, if_neg (by simpa [List.isEmpty_iff] using hlive_ne)]
      rw [h1'] at hunreg
      simp only [unregister_me, herase, Option.map_some'] at hunreg
      injection hunreg with hr
      exact ⟨hr.symm, ((eraseById_sublist _ a lv herase).map Prod.fst).nodup h2⟩
    · exact absurd h (by simp)

lemma execOps_inv (L : Nat) :
    ∀ (ops : List LOp) (s s2 : LState),
      execOps L s ops = some s2 → InvS s → InvS s2
  | [], s, s2, h, hI => by
    rw [execOps] at h
    cases h
    exact hI
  | op :: ops, s, s2, h, hI => by
    rw [execOps] at h
    split at h
    · exact absurd h (by simp)
    · next s3 hstep =>
      exact execOps_inv L ops s3 s2 h (stepOp_inv hI hstep)

/-! ## Claim theorems -/

lemma filter_isApp_map_val (xs : List String) :
    (xs.map Wr.val).filter Wr.isApp = [] := by
  induction xs with
  | nil => rfl
  | cons x xs ih => simp [Wr.isApp, ih]

lemma filter_isApp_preW (l : logger) : (preW l).filter Wr.isApp = [] := by
  cases hp : l.m_prepend <;> simp [preW, hp, Wr.isApp]

lemma filter_isPre_map_val (xs : List String) :
    (xs.map Wr.val).filter Wr.isPre = [] := by
  induction xs with
  | nil => rfl
  | cons x xs ih => simp [Wr.isPre, ih]

lemma filter_isPre_appW (l : logger) : (appW l).filter Wr.isPre = [] := by
  cases ha : l.m_append <;> simp [appW, ha, Wr.isPre]

lemma getLast_map_val :
    ∀ (v : String) (vs : List String),
      ((v :: vs).map Wr.val).getLast? = some (Wr.val (vs.getLastD v))
  | _, [] => rfl
  | v, w :: ws => by
    rw [List.getLastD_cons]
    rw [show (v :: w :: ws).map Wr.val = [Wr.val v] ++ (w :: ws).map Wr.val from rfl,
      List.getLast?_append, getLast_map_val w ws]
    rfl

/-- C1: for a logger with a sink set, an append (suffix) text configured and
emission enabled, a statement chaining `n ≥ 1` values writes the suffix text
exactly once, immediately after the last value: the receiver copies created
by the chaining (`receiver::treat` marks the current session treated and
hands an untreated copy to the next `<<`) leave exactly the last session
untreated, so `receiver::~receiver` fires `signal_end` exactly once. -/
theorem C1_suffix_exactly_once (l : logger) (thr : Nat) (a v : String)
    (vs : List String) (h : l.can_log thr = true) (ha : l.m_append = some a) :
    (l.statement thr v vs).filter Wr.isApp = [Wr.app a]
    ∧ l.statement thr v vs = (l.statement thr v vs).dropLast ++ [Wr.app a]
    ∧ ((l.statement thr v vs).dropLast).getLast?
        = some (Wr.val (vs.getLastD v)) := by
  have happ : appW l = [Wr.app a] := by simp [appW, ha]
  have hs : l.statement thr v vs
      = (preW l ++ (v :: vs).map Wr.val) ++ [Wr.app a] := by
    rw [statement_closed v vs h, happ]
  refine ⟨?_, ?_, ?_⟩
  · rw [hs, List.filter_append, List.filter_append, filter_isApp_preW,
      filter_isApp_map_val]
    simp [Wr.isApp]
  · rw [hs, List.dropLast_concat]
  · rw [hs, List.dropLast_concat, List.getLast?_append, getLast_map_val]
    rfl

/-- C1 witness: a concrete chained statement with three values, prepend
text "P" and append text "A". -/
theorem C1_suffix_exactly_once_w :
    ((⟨5, false, some 1, some "P", some "A"⟩ : logger).can_log 5 = true)
    ∧ ((⟨5, false, some 1, some "P", some "A"⟩ : logger).m_append = some "A")
    ∧ (((⟨5, false, some 1, some "P", some "A"⟩ : logger).statement 5 "a"
          ["b", "c"]).filter Wr.isApp = [Wr.app "A"]
       ∧ (⟨5, false, some 1, some "P", some "A"⟩ : logger).statement 5 "a"
             ["b", "c"]
           = ((⟨5, false, some 1, some "P", some "A"⟩ : logger).statement 5 "a"
               ["b", "c"]).dropLast ++ [Wr.app "A"]
       ∧ (((⟨5, false, some 1, some "P", some "A"⟩ : logger).statement 5 "a"
             ["b", "c"]).dropLast).getLast?
           = some (Wr.val (["b", "c"].getLastD "a"))) :=
  ⟨by decide, rfl,
    C1_suffix_exactly_once ⟨5, false, some 1, some "P", some "A"⟩ 5 "A" "a"
      ["b", "c"] (by decide) rfl⟩

/-- C2: for a logger with a prepend (prefix) text configured, a sink set and
emission enabled, every statement writes the prefix exactly once, as the
very first write, and never again for later tokens; and the statement
`error_logger << line_end` whose only token is the line-end manipulator,
with prefix "[EE] ", puts exactly the bytes "[EE] \n" on the sink
(`operator<<(const logger &, standard_endline)` calls
`signal(_func, true)`, which writes the prefix before the terminator). -/
theorem C2_prefix_once_and_manipulator_first (l : logger) (thr : Nat)
    (p v : String) (vs : List String) (h : l.can_log thr = true)
    (hp : l.m_prepend = some p) :
    (l.statement thr v vs).filter Wr.isPre = [Wr.pre p]
    ∧ (l.statement thr v vs).head? = some (Wr.pre p)
    ∧ render ((⟨loglevel.error, false, some 1, some "[EE] ", none⟩ :
        logger).endlStatement loglevel.error) = "[EE] \n" := by
  have hpre : preW l = [Wr.pre p] := by simp [preW, hp]
  have hs : l.statement thr v vs
      = Wr.pre p :: ((v :: vs).map Wr.val ++ appW l) := by
    rw [statement_closed v vs h, hpre]
    simp
  refine ⟨?_, ?_, by decide⟩
  · rw [hs]
    simp only [List.filter_cons]
    rw [List.filter_append, filter_isPre_map_val, filter_isPre_appW]
    simp [Wr.isPre]
  · rw [hs]
    rfl

/-- C2 witness: prefix "[EE] " on a concrete two-value statement. -/
theorem C2_prefix_once_and_manipulator_first_w :
    ((⟨5, false, some 1, some "[EE] ", none⟩ : logger).can_log 5 = true)
    ∧ ((⟨5, false, some 1, some "[EE] ", none⟩ : logger).m_prepend
        = some "[EE] ")
    ∧ (((⟨5, false, some 1, some "[EE] ", none⟩ : logger).statement 5 "a"
          ["b"]).filter Wr.isPre = [Wr.pre "[EE] "]
       ∧ ((⟨5, false, some 1, some "[EE] ", none⟩ : logger).statement 5 "a"
            ["b"]).head? = some (Wr.pre "[EE] ")
       ∧ render ((⟨loglevel.error, false, some 1, some "[EE] ", none⟩ :
           logger).endlStatement loglevel.error) = "[EE] \n") :=
  ⟨by decide, rfl,
    C2_prefix_once_and_manipulator_first ⟨5, false, some 1, some "[EE] ", none⟩
      5 "[EE] " "a" ["b"] (by decide) rfl⟩

/-- C3: evaluation of the code at the failing input of the claim.  With the
global threshold set to `loglevel::disabled` (which is 0, qdiilog3.hpp line
30), an error-level logger with a sink set and no mute emits its value —
`can_log` is `level >= get_loglevel()` with no special case for `disabled` —
whereas the claimed predicate `L.rank >= threshold.rank AND threshold !=
disabled` (spec §4.1, stated here as `spec_can_emit`) forbids any emission
at that threshold.  (The library's own documentation, src/unnamed/part_001
header, says the disable level "will disable all output": the code
contradicts it.) -/
theorem C3_threshold_disabled_still_emits :
    (⟨loglevel.error, false, some 1, none, none⟩ : logger).statement
        loglevel.disabled "x" [] = [Wr.val "x"]
    ∧ spec_can_emit loglevel.error loglevel.disabled = false
    ∧ (⟨loglevel.error, false, some 1, none, none⟩ : logger).can_log
        loglevel.disabled = true := by
  refine ⟨?_, by decide, by decide⟩
  decide

/-- C4: evaluation of the code against the claim.  In the code the
`disabled` sentinel is 0 and `error` is 5, so `disabled` compares SMALLER
than `error`, not greater; and with the threshold set to `disabled` the
guard `level >= get_loglevel()` is true for every severity, so an
error-level logger with a sink still emits — setting the threshold to
`disabled` enables everything instead of suppressing everything. -/
theorem C4_disabled_sentinel_is_least :
    loglevel.disabled < loglevel.error
    ∧ ¬ (loglevel.disabled > loglevel.error)
    ∧ (∀ lv : Nat, (⟨lv, false, some 1, none, none⟩ : logger).can_log
         loglevel.disabled = true)
    ∧ (⟨loglevel.error, false, some 1, none, none⟩ : logger).statement
        loglevel.disabled "x" [] ≠ [] := by
  refine ⟨by decide, by decide, ?_, by decide⟩
  intro lv
  simp [logger.can_log, logger.isDisabled, loglevel.disabled]

/-- C5 counterexample: the claim quantifies over every logger, but for a
logger constructed with `_disabled = true` (instance-muted), `logger(true)`
is not identical to `logger`: `operator()(bool _cond)` sets the copy's
`m_disabled` to `!_cond` unconditionally, so `logger(true)` un-mutes the
muted logger for that one statement. -/
theorem C5_cond_true_unmutes_muted_logger :
    (⟨5, true, some 1, none, none⟩ : logger).statement 5 "x" [] = []
    ∧ ((⟨5, true, some 1, none, none⟩ : logger).cond true).statement 5 "x" []
        = [Wr.val "x"]
    ∧ ((⟨5, true, some 1, none, none⟩ : logger).cond true).statement 5 "x" []
        ≠ (⟨5, true, some 1, none, none⟩ : logger).statement 5 "x" [] := by
  refine ⟨?_, ?_, ?_⟩ <;> decide

/-- C5 as amended: for a logger whose own disabled flag is false (not
instance-muted), `logger(false) << v...` writes nothing whatever the
threshold and sink are, `logger(true) << v...` writes exactly what
`logger << v...` writes, the conditional call produces a copy whose
`m_disabled` is `!cond`, and the call leaves the original object unchanged
(`operator()` assigns only the returned copy). -/
theorem C5_conditional_mute (l : logger) (thr : Nat) (c : Bool) (v : String)
    (vs : List String) (hm : l.m_disabled = false) :
    (l.cond false).statement thr v vs = []
    ∧ (l.condS c).1 = l
    ∧ (l.cond c).m_disabled = !c
    ∧ (l.cond true).statement thr v vs = l.statement thr v vs := by
  refine ⟨?_, rfl, rfl, ?_⟩
  · have hc : (l.cond false).can_log thr = false := by
      simp [logger.cond, logger.condS, logger.can_log, logger.isDisabled]
    exact statement_none v vs hc
  · have : l.cond true = l := by
      cases l
      simp_all [logger.cond, logger.condS]
    rw [this]

/-- C5 witness: the amended statement at a concrete unmuted logger. -/
theorem C5_conditional_mute_w :
    ((⟨5, false, some 1, none, none⟩ : logger).m_disabled = false)
    ∧ (((⟨5, false, some 1, none, none⟩ : logger).cond false).statement 4 "x"
          ["y"] = []
       ∧ ((⟨5, false, some 1, none, none⟩ : logger).condS false).1
           = ⟨5, false, some 1, none, none⟩
       ∧ ((⟨5, false, some 1, none, none⟩ : logger).cond false).m_disabled
           = !false
       ∧ ((⟨5, false, some 1, none, none⟩ : logger).cond true).statement 4 "x"
             ["y"]
           = (⟨5, false, some 1, none, none⟩ : logger).statement 4 "x" ["y"]) :=
  ⟨rfl, C5_conditional_mute ⟨5, false, some 1, none, none⟩ 4 false "x" ["y"] rfl⟩

/-- C6: for two independently constructed, registered logger instances of
the same severity, calling the member `set_output` on one (which, per the
final revision src/unnamed/part_001, is `set_all_outputs` — a broadcast
over the severity's registry) updates every registered instance, not just
the receiver of the call: afterwards the other instance holds the new sink
and a statement on it emits. -/
theorem C6_set_output_broadcasts (es : List RegEntry) (iA iB o thr : Nat)
    (A B : logger) (v : String) (hA : (iA, A) ∈ es) (hB : (iB, B) ∈ es)
    (hthr : thr ≤ B.level) (hdis : B.m_disabled = false) :
    ∃ es2, set_output_member (some es) o = some (some es2)
      ∧ (iB, B.change_output o) ∈ es2
      ∧ (B.change_output o).m_output = some o
      ∧ (B.change_output o).statement thr v [] ≠ [] := by
  refine ⟨es.map (fun e => (e.1, e.2.change_output o)), ?_,
    List.mem_map_of_mem _ hB, rfl, ?_⟩
  · rfl
  · have hcl : (B.change_output o).can_log thr = true := by
      simp [logger.can_log, logger.change_output, logger.isDisabled, hdis, hthr]
    exact statement_ne_nil v [] hcl

/-- C6 witness: two default-constructed error-level instances; a broadcast
of sink 7 through one is observable on the other. -/
theorem C6_set_output_broadcasts_w :
    (((1 : Nat), logger.mk_default 5 false)
        ∈ [((1 : Nat), logger.mk_default 5 false),
           ((2 : Nat), logger.mk_default 5 false)])
    ∧ (((2 : Nat), logger.mk_default 5 false)
        ∈ [((1 : Nat), logger.mk_default 5 false),
           ((2 : Nat), logger.mk_default 5 false)])
    ∧ ((5 : Nat) ≤ (logger.mk_default 5 false).level)
    ∧ ((logger.mk_default 5 false).m_disabled = false)
    ∧ (∃ es2, set_output_member
          (some [((1 : Nat), logger.mk_default 5 false),
                 ((2 : Nat), logger.mk_default 5 false)]) 7 = some (some es2)
        ∧ ((2 : Nat), (logger.mk_default 5 false).change_output 7) ∈ es2
        ∧ ((logger.mk_default 5 false).change_output 7).m_output = some 7
        ∧ ((logger.mk_default 5 false).change_output 7).statement 5 "x" []
            ≠ []) :=
  ⟨by decide, by decide, by decide, rfl,
    C6_set_output_broadcasts
      [((1 : Nat), logger.mk_default 5 false),
       ((2 : Nat), logger.mk_default 5 false)]
      1 2 7 5 (logger.mk_default 5 false) (logger.mk_default 5 false) "x"
      (by decide) (by decide) (by decide) rfl⟩

/-- C7 counterexample: when the registry for a severity has become empty,
`unregister_me` has deleted the vector and nulled `m_loggers`
(qdiilog3.hpp lines 256-260); a subsequent `set_all_outputs` then
dereferences the null pointer (`m_loggers->end()`, line 266) — modelled as
the failure `none` — rather than succeeding as a no-op (`some none`), so
the claim's "it does not fail" is false on the code. -/
theorem C7_broadcast_on_null_registry_fails :
    set_all_outputs none 7 = none
    ∧ set_all_outputs none 7 ≠ some none := by
  refine ⟨rfl, by decide⟩

/-- C7 as amended: a broadcast on an empty (null) registry is a null-pointer
dereference, not a harmless no-op; and an instance registered after any
broadcast holds only the constructor's defaults (`m_output` null, lines
139-147), never the earlier broadcast value — broadcasts affect only
instances live at call time. -/
theorem C7_null_broadcast_and_non_retroactive (o lv a : Nat) (dis : Bool)
    (reg : Registry) :
    set_all_outputs none o = none
    ∧ (logger.mk_default lv dis).m_output = none
    ∧ ∃ es, register_me reg (a, logger.mk_default lv dis) = some es
        ∧ (a, logger.mk_default lv dis) ∈ es := by
  refine ⟨rfl, rfl, ?_⟩
  cases reg with
  | none => exact ⟨[(a, logger.mk_default lv dis)], rfl, by simp⟩
  | some es => exact ⟨es ++ [(a, logger.mk_default lv dis)], rfl, by simp⟩

/-- C8: `~logger` (qdiilog3.hpp lines 158-161) runs `unregister_me`, which
removes exactly the entry whose address is the destroyed instance (under the
identity-uniqueness of addresses), keeping every other registered instance;
and unregistering an address that is not present fails — the linear search
reaches `end`, the `assert( it != end )` on line 253 fires — instead of
succeeding silently. -/
theorem C8_unregister_exactly_that_instance (es : List RegEntry) (a : Nat)
    (hnd : (es.map Prod.fst).Nodup) :
    (a ∈ es.map Prod.fst →
      unregister_me (some es) a
        = some (if (es.filter (fun e => decide (e.1 ≠ a))).isEmpty then none
                else some (es.filter (fun e => decide (e.1 ≠ a)))))
    ∧ (a ∉ es.map Prod.fst → unregister_me (some es) a = none) := by
  constructor
  · intro hmem
    simp only [unregister_me, eraseById_of_mem_nodup es a hnd hmem,
      Option.map_some']
  · intro hnot
    simp only [unregister_me, eraseById_of_not_mem es a hnot, Option.map_none']

/-- C8 witness: a two-entry registry; unregistering address 2 removes exactly
that entry, unregistering the absent address 9 fails. -/
theorem C8_unregister_exactly_that_instance_w :
    (([((1 : Nat), logger.mk_default 5 false),
       ((2 : Nat), logger.mk_default 5 true)].map Prod.fst).Nodup)
    ∧ unregister_me
        (some [((1 : Nat), logger.mk_default 5 false),
               ((2 : Nat), logger.mk_default 5 true)]) 2
        = some (some [((1 : Nat), logger.mk_default 5 false)])
    ∧ unregister_me
        (some [((1 : Nat), logger.mk_default 5 false),
               ((2 : Nat), logger.mk_default 5 true)]) 9 = none :=
  ⟨by decide,
    ((C8_unregister_exactly_that_instance
        [((1 : Nat), logger.mk_default 5 false),
         ((2 : Nat), logger.mk_default 5 true)] 2 (by decide)).1
      (by decide)).trans (by decide),
    (C8_unregister_exactly_that_instance
        [((1 : Nat), logger.mk_default 5 false),
         ((2 : Nat), logger.mk_default 5 true)] 9 (by decide)).2 (by decide)⟩

/-- C9: after any successful sequence of `logger<L>` constructions (plain,
copy, and the copies made by `operator()(bool)`) and destructions starting
from no live instance, the static per-level registry holds exactly the
currently-live instances — one entry per live instance — and the registry
vector is deallocated (the pointer null) exactly when no instance is live. -/
theorem C9_registry_tracks_live_instances (L : Nat) (ops : List LOp)
    (s : LState) (h : execOps L ⟨[], none⟩ ops = some s) :
    (s.reg = none ↔ s.live = [])
    ∧ ∀ es, s.reg = some es →
        es = s.live ∧ ∀ e ∈ s.live, (es.map Prod.fst).count e.1 = 1 := by
  have hI : InvS s := execOps_inv L ops _ s h ⟨rfl, List.nodup_nil⟩
  obtain ⟨h1, h2⟩ := hI
  by_cases hliv : s.live = []
  · rw [hliv] at h1
    simp only [List.isEmpty_nil, if_pos] at h1
    refine ⟨by rw [h1, hliv]; simp, fun es hes => ?_⟩
    rw [h1] at hes
    exact absurd hes (by simp)
  · have h1s : s.reg = some s.live := by
      rw [h1, if_neg (by simpa [List.isEmpty_iff] using hliv)]
    refine ⟨by rw [h1s]; simp [hliv], fun es hes => ?_⟩
    have hes2 : es = s.live := by
      rw [h1s] at hes
      exact (Option.some_inj.mp hes).symm
    refine ⟨hes2, fun e he => ?_⟩
    rw [hes2]
    exact List.count_eq_one_of_mem h2 (List.mem_map_of_mem Prod.fst he)

/-- C9 witness: construct instance 1, copy it to instance 2, mute-copy it to
instance 3 via the conditional call, destroy 1 and 3; the registry then holds
exactly the live instance 2. -/
theorem C9_registry_tracks_live_instances_w :
    (execOps 5 ⟨[], none⟩
        [LOp.construct 1 false, LOp.copy 1 2, LOp.condCall 1 3 false,
         LOp.destroy 1, LOp.destroy 3]
      = some ⟨[(2, logger.mk_default 5 false)],
              some [(2, logger.mk_default 5 false)]⟩)
    ∧ ((some [((2 : Nat), logger.mk_default 5 false)] : Registry) = none
         ↔ [((2 : Nat), logger.mk_default 5 false)] = [])
    ∧ ∀ es, (some [((2 : Nat), logger.mk_default 5 false)] : Registry)
          = some es →
        es = [((2 : Nat), logger.mk_default 5 false)]
        ∧ ∀ e ∈ [((2 : Nat), logger.mk_default 5 false)],
            (es.map Prod.fst).count e.1 = 1 :=
  ⟨by decide,
    C9_registry_tracks_live_instances 5
      [LOp.construct 1 false, LOp.copy 1 2, LOp.condCall 1 3 false,
       LOp.destroy 1, LOp.destroy 3]
      ⟨[(2, logger.mk_default 5 false)], some [(2, logger.mk_default 5 false)]⟩
      (by decide)⟩

/-- C10: the emission operations `treat`, `signal` and `signal_end` never
modify the logger's configuration: for every logger and every emitted value
or manipulator the object after the call equals the object before it — in
particular `m_output`, `m_prepend`, `m_append` and `m_disabled` are
unchanged; the only observable effect is the writes put on the sink. -/
theorem C10_emission_does_not_modify_config (l : logger) (thr : Nat)
    (msg : String) (fp fm : Bool) :
    ((l.treatS thr msg fp).1 = l ∧ (l.signalS thr fm).1 = l
      ∧ (l.signal_endS thr).1 = l)
    ∧ ((l.treatS thr msg fp).1.m_output = l.m_output
       ∧ (l.treatS thr msg fp).1.m_prepend = l.m_prepend
       ∧ (l.treatS thr msg fp).1.m_append = l.m_append
       ∧ (l.treatS thr msg fp).1.m_disabled = l.m_disabled) := by
  have ht : (l.treatS thr msg fp).1 = l := by
    rw [logger.treatS]
    split <;> rfl
  have hs : (l.signalS thr fm).1 = l := by
    rw [logger.signalS]
    split <;> rfl
  have he : (l.signal_endS thr).1 = l := by
    rw [logger.signal_endS]
    split <;> rfl
  exact ⟨⟨ht, hs, he⟩, by rw [ht], by rw [ht], by rw [ht], by rw [ht]⟩

end qlog
